import Mathlib

/-
Verification development for rebuild_card_data.py (RBRefresh repository).

The Python script is shallowly embedded below.  Python strings are Lean
Strings (operations implemented on the underlying character lists so that
everything reduces in the kernel); a CSV row (a dict of column name to raw
string) is a function from column names to Option String (none = missing
column); fallible numeric parsing returns Option.  Python floats are kept
exact: the script never does arithmetic on a parsed value, it only stores
it, so a parsed decimal literal is modelled as an exact rational (the
rounding of a literal to binary64 is irrelevant to every claim considered
here); the inf / nan spellings accepted by Python's float() are modelled by
dedicated constructors.
-/

namespace RBRefresh

/-- Python str.strip(): remove leading and trailing whitespace. -/
def pyStrip (s : String) : String :=
  ⟨((s.data.dropWhile Char.isWhitespace).reverse.dropWhile Char.isWhitespace).reverse⟩

/-- Python str.lower() (ASCII case mapping, which covers all inputs the
claims exercise). -/
def pyLower (s : String) : String := ⟨s.data.map Char.toLower⟩

/-- Python str.upper() (ASCII case mapping). -/
def pyUpper (s : String) : String := ⟨s.data.map Char.toUpper⟩

/-- Python str.capitalize(): first character upper-cased, every remaining
character lower-cased. -/
def pyCapitalize (s : String) : String :=
  match s.data with
  | [] => ""
  | c :: cs => ⟨Char.toUpper c :: cs.map Char.toLower⟩

/-- Python sep.join(xs). -/
def pyJoin (sep : String) : List String → String
  | [] => ""
  | x :: xs => xs.foldl (fun acc y => acc ++ sep ++ y) x

/-- Python s.split(law) for a single comma: every comma is a separator and
empty pieces are kept. -/
def splitComma : List Char → List (List Char)
  | [] => [[]]
  | ',' :: rest => [] :: splitComma rest
  | c :: rest =>
    match splitComma rest with
    | [] => [[c]]
    | p :: ps => (c :: p) :: ps

/-- Digit run to a natural number (callers guarantee the characters are
decimal digits). -/
def digitsVal (ds : List Char) : ℕ :=
  ds.foldl (fun a c => a * 10 + (c.toNat - 48)) 0

/-- Result of Python float(): a finite value (kept exact, see header), an
infinity, or a nan. -/
inductive PyFloat where
  | fin (q : ℚ)
  | inf (neg : Bool)
  | nan
deriving DecidableEq

/-- Python 3 numeric literals allow single underscores between digits
(anywhere in the literal); this checks that every underscore has a digit
immediately on both sides. -/
def underscoresOK : List Char → Bool
  | [] => true
  | ['_'] => false
  | [_] => true
  | '_' :: _ :: _ => false
  | a :: '_' :: c :: rest => a.isDigit && c.isDigit && underscoresOK (c :: rest)
  | _ :: b :: rest => underscoresOK (b :: rest)

/-- Exponent part after the letter e of a float literal: optional sign then
one or more digits, consuming the whole rest. -/
def parseExpPart (cs : List Char) : Option (Bool × ℕ) :=
  let p := match cs with
    | '+' :: r => (false, r)
    | '-' :: r => (true, r)
    | r => (false, r)
  let ds := p.2.takeWhile Char.isDigit
  if ds = [] then none
  else if p.2.dropWhile Char.isDigit ≠ [] then none
  else some (p.1, digitsVal ds)

/-- Finite float literal body (after the sign, underscores removed):
digits, optional point and fraction digits, optional exponent.  The value
is assembled as one exact fraction with integer arithmetic: the digits
before and after the point give the numerator, the fraction length and the
exponent adjust numerator or denominator by powers of ten. -/
def parseFin (neg : Bool) (cs : List Char) : Option PyFloat :=
  let ip := cs.takeWhile Char.isDigit
  let r1 := cs.dropWhile Char.isDigit
  let fr := match r1 with
    | '.' :: r => (r.takeWhile Char.isDigit, r.dropWhile Char.isDigit)
    | _ => (([] : List Char), r1)
  if ip = [] ∧ fr.1 = [] then none
  else
    let m : ℤ := (digitsVal ip : ℤ) * (10 : ℤ) ^ fr.1.length + (digitsVal fr.1 : ℤ)
    let n : ℤ := if neg then -m else m
    match fr.2 with
    | [] => some (.fin (mkRat n ((10 : ℕ) ^ fr.1.length)))
    | e :: rest =>
      if e = 'e' ∨ e = 'E' then
        match parseExpPart rest with
        | some ex =>
          if ex.1 then some (.fin (mkRat n ((10 : ℕ) ^ fr.1.length * (10 : ℕ) ^ ex.2)))
          else some (.fin (mkRat (n * (10 : ℤ) ^ ex.2) ((10 : ℕ) ^ fr.1.length)))
        | none => none
      else none

/-- Python float(s): strip whitespace, optional sign, then either an
inf / infinity / nan spelling (case-insensitive) or a finite decimal
literal, with underscores allowed between digits.  Returns none exactly
when Python raises ValueError.  (Overflow of a huge finite literal to an
IEEE infinity is not modelled; no claim involves such inputs.) -/
def pyFloat (s : String) : Option PyFloat :=
  match (pyStrip s).data with
  | [] => none
  | _ :: _ =>
    let cs := (pyStrip s).data
    let p := match cs with
      | '+' :: r => (false, r)
      | '-' :: r => (true, r)
      | r => (false, r)
    let low := p.2.map Char.toLower
    if low = ("inf").data ∨ low = ("infinity").data then some (.inf p.1)
    else if low = ("nan").data then some (.nan)
    else if underscoresOK p.2 then parseFin p.1 (p.2.filter (fun c => c ≠ '_'))
    else none

/-
Keyword extractor, rebuild_card_data.py lines 124-167.
-/

/-- Scanner for the regular expression pattern of line 148 (an open
bracket, one or more non-close-bracket characters as the group, then a
close bracket), as a left-to-right state machine: the second argument is
none outside a candidate match and carries the reversed group characters
accumulated since the last unmatched open bracket otherwise.  A close
bracket with a non-empty accumulator completes a match; with an empty
accumulator the attempt fails (the group needs at least one character) and
scanning resumes, which agrees with the regex engine resuming one
character after the failed open bracket, because a close bracket can never
start a match. -/
def bracketScanAux : List Char → Option (List Char) → List (List Char)
  | [], _ => []
  | c :: rest, none =>
    if c = '[' then bracketScanAux rest (some []) else bracketScanAux rest none
  | c :: rest, some acc =>
    if c = ']' then
      if acc = [] then bracketScanAux rest none
      else acc.reverse :: bracketScanAux rest none
    else bracketScanAux rest (some (c :: acc))

/-- Matches (group texts) of the non-greedy bracket pattern, left to
right, non-overlapping, as re.findall produces them. -/
def bracketScan (cs : List Char) : List (List Char) :=
  bracketScanAux cs none

/-- Group texts of the bracket matches in a text, as strings
(rebuild_card_data.py line 148). -/
def bracketMatches (text : String) : List String :=
  (bracketScan text.data).map (fun l => ⟨l⟩)

/-- Substitution of the empty string for a trailing run of whitespace
followed by a trailing run of digits (the regex sub used at line 153):
remove the tail made of one or more whitespace characters then one or more
digits at the very end, if present. -/
def stripNumSuffix (kw : String) : String :=
  let r := kw.data.reverse
  let ds := r.takeWhile Char.isDigit
  if ds = [] then kw
  else
    let r1 := r.dropWhile Char.isDigit
    if r1.takeWhile Char.isWhitespace = [] then kw
    else ⟨(r1.dropWhile Char.isWhitespace).reverse⟩

/-- Loop body of the bracket pass (lines 149-155): strip the match, compute
its base form without a numeric suffix, and append the stripped match (with
its suffix) when the base form is non-empty and not already an element. -/
def addBracket (acc : List String) (m : String) : List String :=
  let kw := pyStrip m
  let base := stripNumSuffix kw
  if base ≠ "" ∧ base ∉ acc then acc ++ [kw] else acc

/-- The bracket pass of extract_keywords (lines 147-155). -/
def bracketKeywords (text : String) : List String :=
  (bracketMatches text).foldl addBracket []

/-- Python substring test (the in operator on strings). -/
def containsSub (hay pat : List Char) : Bool :=
  hay.tails.any (fun t => pat.isPrefixOf t)

/-- The known_keywords table (lines 135-145). -/
def known_keywords : List String :=
  ["Accelerate", "Action", "Reaction", "Hidden", "Vision", "Legion",
   "Assault", "Defender", "Elusive", "Fearsome", "Mighty", "Temporary",
   "Quick Attack", "Overwhelm", "Lifesteal", "Barrier", "Spellshield",
   "Regeneration", "Tough", "Challenger", "Scout", "Fury", "Attune",
   "Deep", "Ephemeral", "Last Breath", "Nexus Strike", "Play", "Strike",
   "Support", "Vulnerable", "Capture", "Frostbite", "Immobile", "Recall",
   "Silence", "Stun", "Obliterate", "Rally", "Enlightened", "Reputation",
   "Lurk", "Predict", "Invoke", "Behold", "Augment", "Impact", "Formidable",
   "Equipment", "Attach", "Hallowed", "Evolve", "Husk", "Boon", "Flow"]

/-- After a bracketed keyword name, the confirmation pattern of line 162
requires either an immediate close bracket or one or more whitespace
characters, one or more digits, and then the close bracket. -/
def closeOk (cs : List Char) : Bool :=
  match cs with
  | ']' :: _ => true
  | _ =>
    if cs.takeWhile Char.isWhitespace = [] then false
    else
      let r1 := cs.dropWhile Char.isWhitespace
      if r1.takeWhile Char.isDigit = [] then false
      else
        match r1.dropWhile Char.isDigit with
        | ']' :: _ => true
        | _ => false

/-- Does the confirmation pattern match at the start of this (lower-cased)
suffix: an open bracket, the keyword, an optional whitespace-digits tail
and a close bracket; or an open parenthesis followed by the keyword. -/
def matchesAt (kwl suffix : List Char) : Bool :=
  (('[' :: kwl).isPrefixOf suffix && closeOk (suffix.drop (kwl.length + 1)))
    || (('(' :: kwl).isPrefixOf suffix)

/-- The re.search of line 163: the confirmation pattern, case-insensitively
(modelled by lower-casing both the text and the keyword), anywhere in the
text. -/
def regexSearch (kw text : String) : Bool :=
  (pyLower text).data.tails.any (fun t => matchesAt (pyLower kw).data t)

/-- Loop body of the vocabulary pass (lines 159-165). -/
def vocabStep (text : String) (acc : List String) (kw : String) : List String :=
  if containsSub (pyLower text).data (pyLower kw).data = true ∧ kw ∉ acc then
    if regexSearch kw text = true then
      if kw ∉ acc then acc ++ [kw] else acc
    else acc
  else acc

/-- extract_keywords (lines 124-167): the bracket pass followed by the
vocabulary pass.  (The keyword_patterns list at lines 129-132 is defined
in the source but never used, so it has no counterpart here.) -/
def extract_keywords (text : String) : List String :=
  known_keywords.foldl (vocabStep text) (bracketKeywords text)

/-
Data model and the row parser, rebuild_card_data.py lines 15-122.
-/

/-- One CSV row as given by csv.DictReader: a mapping from column name to
raw string; none models a missing column. -/
abbrev Row := String → Option String

/-- The image map built by load_images plus the manual fallbacks: a mapping
from card name to URL. -/
abbrev Images := String → Option String

/-- Python row.get(key, two-quote default) on a string-valued dict. -/
def rget (row : Row) (k : String) : String := (row k).getD ("")

/-- A value of the power stat: a parsed float, or a literal string
(an all-C symbolic cost, or the raw field when parsing fails). -/
inductive PowerVal where
  | num (f : PyFloat)
  | str (s : String)
deriving DecidableEq

/-- The stats record of a card. -/
structure Stats where
  energy : Option PyFloat
  might : Option PyFloat
  power : Option PowerVal
deriving DecidableEq

/-- The rules_text record of a card. -/
structure RulesText where
  raw : String
  keywords : List String
deriving DecidableEq

/-- A card record of the output JSON; none in an Option-typed field means
the key is absent from the emitted object. -/
structure Card where
  id : String
  name : String
  rarity : String
  domain : String
  type_line : String
  stats : Stats
  rules_text : RulesText
  supertypes : Option String
  tags : Option (List String)
  image_url : Option String
deriving DecidableEq

/-- Domain column handling of lines 27-28: the guarded get (an absent or
empty column gives the empty string), then strip and capitalize. -/
def rawDomainField (row : Row) (k : String) : String :=
  match row k with
  | some s => if s = "" then "" else pyCapitalize (pyStrip s)
  | none => ""

/-- The domains list of lines 31-35. -/
def domainList (row : Row) : List String :=
  (if rawDomainField row ("Domain 1") ≠ "" ∧
      pyLower (rawDomainField row ("Domain 1")) ∉ [("" : String), ("nan")] then
    [rawDomainField row ("Domain 1")] else [])
  ++ (if rawDomainField row ("Domain 2") ≠ "" ∧
      pyLower (rawDomainField row ("Domain 2")) ∉ [("" : String), ("nan")] then
    [rawDomainField row ("Domain 2")] else [])

/-- The domain string of line 36. -/
def domainStr (row : Row) : String :=
  if domainList row = [] then "Colorless" else pyJoin (", ") (domainList row)

/-- The card type of lines 39-41. -/
def cardTypeOf (row : Row) : String :=
  let t := pyLower (pyStrip (rget row ("types")))
  if t = "" then "unit" else t

/-- The subtypes list of lines 44-48. -/
def subtypesOf (row : Row) : List String :=
  (["Subtype 1", "Subtype 2", "Subtype 3", "Subtype 4", "Subtype 5"].map
      (fun k => pyStrip (rget row k))).filterMap
    (fun st => if st ≠ "" ∧ pyLower st ∉ [("" : String), ("nan")] then
      some (pyLower st) else none)

/-- The type_line of lines 51-54. -/
def typeLineOf (row : Row) : String :=
  if subtypesOf row = [] then cardTypeOf row
  else cardTypeOf row ++ " - " ++ pyJoin (", ") (subtypesOf row)

/-- Energy parsing of lines 65-68: absent on empty, a dash, or a parse
failure. -/
def energyVal (row : Row) : Option PyFloat :=
  let energy := pyStrip (rget row ("Energy"))
  if energy ≠ "" ∧ energy ∉ [("" : String), ("-")] then pyFloat energy else none

/-- Might parsing of lines 71-74, identical to Energy. -/
def mightVal (row : Row) : Option PyFloat :=
  let might := pyStrip (rget row ("Might"))
  if might ≠ "" ∧ might ∉ [("" : String), ("-")] then pyFloat might else none

/-- Power parsing of lines 77-86: absent on empty or a dash; the
upper-cased literal when removing every C from the upper-cased field
leaves nothing; otherwise the parsed float, falling back to the raw
string on failure. -/
def powerValOf (row : Row) : Option PowerVal :=
  let power := pyStrip (rget row ("Power"))
  if power ≠ "" ∧ power ∉ [("" : String), ("-")] then
    if (pyUpper power).data.filter (fun c => c ≠ 'C') = [] then
      some (.str (pyUpper power))
    else
      match pyFloat power with
      | some f => some (.num f)
      | none => some (.str power)
  else none

/-- The supertypes field of lines 57 and 114-115. -/
def supertypesOf (row : Row) : Option String :=
  let s := pyStrip (rget row ("supertypes"))
  if s ≠ "" ∧ pyLower s ∉ [("" : String), ("nan")] then some (pyLower s) else none

/-- The tags field of lines 118-120: split on commas, strip each piece,
drop empties. -/
def tagsOf (row : Row) : Option (List String) :=
  let tags := pyStrip (rget row ("Tags"))
  if tags ≠ "" ∧ pyLower tags ∉ [("" : String), ("nan")] then
    some (((splitComma tags.data).map (fun l => pyStrip ⟨l⟩)).filter (fun t => t ≠ ""))
  else none

/-- The rules text of line 89 (the ALT TEXT column is read at line 90 but
never used, so it has no effect to model). -/
def descriptionOf (row : Row) : String := pyStrip (rget row ("Description"))

/-- The card dict built at lines 96-120 for a row that passed both
guards. -/
def parsedCard (row : Row) : Card :=
  { id := pyStrip (rget row ("Collector Number")),
    name := pyStrip (rget row ("Name")),
    rarity := pyLower (pyStrip (rget row ("Rarity"))),
    domain := domainStr row,
    type_line := typeLineOf row,
    stats := { energy := energyVal row, might := mightVal row, power := powerValOf row },
    rules_text := { raw := descriptionOf row,
                    keywords := extract_keywords (descriptionOf row) },
    supertypes := supertypesOf row,
    tags := tagsOf row,
    image_url := none }

/-- parse_csv_row (lines 15-122): reject a row whose stripped Name or
Collector Number is empty, otherwise build the card. -/
def parse_csv_row (row : Row) : Option Card :=
  if pyStrip (rget row ("Name")) = "" then none
  else if pyStrip (rget row ("Collector Number")) = "" then none
  else some (parsedCard row)

/-
Legacy records and their conversion, lines 184-216, and the assembly loop
of main, lines 264-289.
-/

/-- The nested stats object of a legacy JSON record. -/
structure LegacyStats where
  might : Option PyFloat
  power : Option PowerVal
deriving DecidableEq

/-- The nested ability object of a legacy JSON record; none conflates an
absent key with a JSON null, which the script treats alike everywhere it
reads these fields. -/
structure LegacyAbility where
  raw_text : Option String
  effect_text : Option String
  keywords : Option (List String)
deriving DecidableEq

/-- A legacy JSON record (older schema). -/
structure LegacyCard where
  id : Option String
  name : Option String
  rarity : Option String
  domain : Option String
  type : Option String
  tags : Option (List String)
  cost : Option PyFloat
  stats : Option LegacyStats
  ability : Option LegacyAbility
  image_url : Option String
deriving DecidableEq

/-- convert_legacy_to_expert (lines 184-216). -/
def convert_legacy_to_expert (lc : LegacyCard) : Card :=
  let card_type := pyLower ((lc.type).getD ("unit"))
  let tags := (lc.tags).getD []
  let type_line :=
    if tags ≠ [] then card_type ++ " - " ++ pyJoin (", ") (tags.map pyLower)
    else card_type
  let ability := (lc.ability).getD { raw_text := none, effect_text := none, keywords := none }
  let raw1 := (ability.raw_text).getD ("")
  let raw_text := if raw1 ≠ "" then raw1 else (ability.effect_text).getD ("")
  let keywords := (ability.keywords).getD []
  { id := (lc.id).getD (""),
    name := (lc.name).getD (""),
    rarity := pyLower ((lc.rarity).getD ("")),
    domain := (lc.domain).getD ("Colorless"),
    type_line := type_line,
    stats := { energy := lc.cost,
               might := ((lc.stats).getD { might := none, power := none }).might,
               power := ((lc.stats).getD { might := none, power := none }).power },
    rules_text := { raw := raw_text, keywords := keywords },
    supertypes := none,
    tags := none,
    image_url := some ((lc.image_url).getD ("")) }

/-- Lines 275-276 of main: attach the image URL when the card's name is a
key of the image map. -/
def attachImage (images : Images) (card : Card) : Card :=
  match images card.name with
  | some url => { card with image_url := some url }
  | none => card

/-- One iteration of the CSV loop of main (lines 271-278): on a parsed
row, append the (possibly image-carrying) card and record the lower-cased
name. -/
def csvStep (images : Images) (acc : List Card × List String) (row : Row) :
    List Card × List String :=
  match parse_csv_row row with
  | none => acc
  | some card => (acc.1 ++ [attachImage images card], acc.2 ++ [pyLower card.name])

/-- The CSV loop of main: the parsed cards in order and the lower-cased
names seen (the Python set is modelled by this list, used only through
membership). -/
def csvPass (rows : List Row) (images : Images) : List Card × List String :=
  rows.foldl (csvStep images) ([], [])

/-- One iteration of the legacy loop of main (lines 284-289): append the
converted record when the lower-cased legacy name is non-empty and not
among the CSV names. -/
def legacyStep (names : List String) (cards : List Card) (lc : LegacyCard) :
    List Card :=
  let legacy_name := pyLower ((lc.name).getD (""))
  if legacy_name ≠ "" ∧ legacy_name ∉ names then
    cards ++ [convert_legacy_to_expert lc]
  else cards

/-- The full record-assembly pipeline of main: CSV pass, then the legacy
reconciliation pass. -/
def buildCards (rows : List Row) (images : Images) (legacies : List LegacyCard) :
    List Card :=
  let p := csvPass rows images
  legacies.foldl (legacyStep p.2) p.1

/-- An image map with no entries, for concrete instances. -/
def noImages : Images := fun _ => none

/-- Build a concrete row from an association list of columns. -/
def rowOf (l : List (String × String)) : Row :=
  fun k => (l.find? (fun p => p.1 = k)).map (fun p => p.2)

/-- A legacy record with every key absent, for concrete instances. -/
def emptyLegacy : LegacyCard :=
  { id := none, name := none, rarity := none, domain := none, type := none,
    tags := none, cost := none, stats := none, ability := none, image_url := none }

/-
Spec-side (refinement) definitions and concrete instances used by the
claims.
-/

/-- The row with every missing column replaced by the empty string (the
default the parser supplies for absent columns). -/
def totalizeRow (row : Row) : Row := fun k => some ((row k).getD (""))

/-- Refinement definition following the spec's words (section 4.1, with
the capitalize behaviour stated precisely): a domain field is trimmed and
capitalized (first letter upper-cased, remaining letters lower-cased), and
is absent when the result is empty or case-insensitively nan. -/
def specDomainField (v : Option String) : Option String :=
  let t := pyCapitalize (pyStrip (v.getD ("")))
  if t = "" ∨ pyLower t = "nan" then none else some t

/-- Refinement definition following the spec's words (section 4.1): join
the present domain values with a comma and a space; if none is present the
domain is Colorless. -/
def spec_domain (row : Row) : String :=
  let ds := (specDomainField (row ("Domain 1"))).toList
    ++ (specDomainField (row ("Domain 2"))).toList
  if ds = [] then "Colorless" else pyJoin (", ") ds

/-- Claim C9's wording for the symbolic Power form: the field consists
entirely of the character C case-insensitively, one or more (the
case-insensitivity realized by upper-casing each character). -/
def isAllC (p : String) : Prop := p ≠ "" ∧ ∀ ch ∈ p.data, Char.toUpper ch = 'C'

/-- Claim C9's wording as a contract between the trimmed Power field and
the stored stats.power value. -/
def powerSpec (p : String) (v : Option PowerVal) : Prop :=
  ((p = "" ∨ p = "-") → v = none) ∧
  (¬(p = "" ∨ p = "-") →
    (isAllC p → v = some (.str (pyUpper p))) ∧
    (¬ isAllC p →
      (∀ f, pyFloat p = some f → v = some (.num f)) ∧
      (pyFloat p = none → v = some (.str p))))

/-- The number of legacy records the reconciliation pass actually appends:
those whose lower-cased name is non-empty and does not occur among the
lower-cased names of the CSV-derived records. -/
def legacyAddCount (rows : List Row) (images : Images) (legacies : List LegacyCard) : ℕ :=
  legacies.countP (fun lc =>
    decide (pyLower ((lc.name).getD ("")) ≠ "" ∧
      pyLower ((lc.name).getD ("")) ∉ ((csvPass rows images).1).map (fun c => pyLower c.name)))

/-- The final record count claim C5 states: CSV-derived records plus every
legacy record (no non-emptiness requirement on its name) whose lower-cased
name is not among the CSV-derived names. -/
def claimCountC5 (rows : List Row) (images : Images) (legacies : List LegacyCard) : ℕ :=
  ((csvPass rows images).1).length + legacies.countP (fun lc =>
    decide (pyLower ((lc.name).getD ("")) ∉ ((csvPass rows images).1).map (fun c => pyLower c.name)))

/-- A row whose Power field is the symbolic cost CC. -/
def rowCC : Row := rowOf [("Name", "T"), ("Collector Number", "1"), ("Power", "CC")]

/-- A row whose Power field is the numeral 3. -/
def rowP3 : Row := rowOf [("Name", "T"), ("Collector Number", "1"), ("Power", "3")]

/-- A row whose Energy and Might fields fail numeric parsing. -/
def rowEnergyBad : Row :=
  rowOf [("Name", "T"), ("Collector Number", "1"), ("Energy", "abc"), ("Might", "xyz")]

/-- A row with an all-caps first domain. -/
def rowFURY : Row := rowOf [("Name", "T"), ("Collector Number", "1"), ("Domain 1", "FURY")]

/-- A row whose first domain is the word colorless itself. -/
def rowColorless : Row :=
  rowOf [("Name", "T"), ("Collector Number", "1"), ("Domain 1", "colorless")]

/-- A legacy record with a name but no id (and no other keys). -/
def lcGhost : LegacyCard := { emptyLegacy with name := some ("Ghost") }

/-- A legacy record with a name but no image_url key (and no other keys). -/
def lcG2 : LegacyCard := { emptyLegacy with name := some ("G2") }

/-
Helper lemmas.
-/

theorem string_mk_eq_empty_iff (l : List Char) : (⟨l⟩ : String) = "" ↔ l = [] := by
  constructor
  · intro h
    exact congrArg String.data h
  · intro h
    subst h
    rfl

theorem pyLower_eq_empty_iff (s : String) : pyLower s = "" ↔ s = "" := by
  cases s with
  | mk l => simp [pyLower, string_mk_eq_empty_iff, List.map_eq_nil_iff]

theorem pyCapitalize_eq_empty_iff (s : String) : pyCapitalize s = "" ↔ s = "" := by
  cases s with
  | mk l =>
    cases l with
    | nil => simp [pyCapitalize]
    | cons c cs =>
      show (⟨Char.toUpper c :: cs.map Char.toLower⟩ : String) = "" ↔ (⟨c :: cs⟩ : String) = ""
      simp [string_mk_eq_empty_iff]

theorem string_length_eq_zero_iff (s : String) : s.length = 0 ↔ s = "" := by
  cases s with
  | mk l => simp [String.length, string_mk_eq_empty_iff, List.length_eq_zero]

theorem pyJoin_foldl_ne_empty (sep : String) (xs : List String) :
    ∀ acc : String, acc ≠ "" → xs.foldl (fun a y => a ++ sep ++ y) acc ≠ "" := by
  induction xs with
  | nil =>
    intro acc h
    simpa using h
  | cons y ys ih =>
    intro acc h
    rw [List.foldl_cons]
    apply ih
    intro hc
    apply h
    have hlen := congrArg String.length hc
    rw [String.length_append, String.length_append] at hlen
    apply (string_length_eq_zero_iff acc).mp
    have h0 : ("" : String).length = 0 := rfl
    omega

theorem pyJoin_cons_ne_empty (sep x : String) (xs : List String) (h : x ≠ "") :
    pyJoin sep (x :: xs) ≠ "" :=
  pyJoin_foldl_ne_empty sep xs x h

theorem parse_csv_row_eq_some_iff {row : Row} {c : Card} :
    parse_csv_row row = some c ↔
      (pyStrip (rget row ("Name")) ≠ "" ∧ pyStrip (rget row ("Collector Number")) ≠ "" ∧
        c = parsedCard row) := by
  unfold parse_csv_row
  split_ifs with h1 h2
  · simp [h1]
  · simp [h1, h2]
  · simp [h1, h2, eq_comm]

theorem addBracket_count_le (acc : List String) (m s : String)
    (hs : stripNumSuffix s = s) (h : acc.count s ≤ 1) :
    (addBracket acc m).count s ≤ 1 := by
  simp only [addBracket]
  split_ifs with hc
  · rw [List.count_append]
    by_cases he : pyStrip m = s
    · have hnm : s ∉ acc := by
        rw [he, hs] at hc
        exact hc.2
      have h0 : acc.count s = 0 := List.count_eq_zero.mpr hnm
      simp [h0, he]
    · have h1 : List.count s [pyStrip m] = 0 :=
        List.count_eq_zero.mpr (by simp [Ne.symm he])
      omega
  · exact h

theorem vocabStep_count_le (text : String) (acc : List String) (kw s : String)
    (h : acc.count s ≤ 1) : (vocabStep text acc kw).count s ≤ 1 := by
  unfold vocabStep
  split_ifs with h1 h2 h3
  any_goals exact h
  rw [List.count_append]
  by_cases he : kw = s
  · have h0 : acc.count s = 0 := List.count_eq_zero.mpr (he ▸ h1.2)
    simp [h0, he]
  · have h4 : List.count s [kw] = 0 := List.count_eq_zero.mpr (by simp [Ne.symm he])
    omega

theorem foldl_addBracket_count (ms : List String) (s : String)
    (hs : stripNumSuffix s = s) :
    ∀ acc : List String, acc.count s ≤ 1 → (ms.foldl addBracket acc).count s ≤ 1 := by
  induction ms with
  | nil =>
    intro acc h
    simpa using h
  | cons m ms ih =>
    intro acc h
    rw [List.foldl_cons]
    exact ih _ (addBracket_count_le acc m s hs h)

theorem foldl_vocabStep_count (text : String) (kws : List String) (s : String) :
    ∀ acc : List String, acc.count s ≤ 1 →
      (kws.foldl (vocabStep text) acc).count s ≤ 1 := by
  induction kws with
  | nil =>
    intro acc h
    simpa using h
  | cons kw kws ih =>
    intro acc h
    rw [List.foldl_cons]
    exact ih _ (vocabStep_count_le text acc kw s h)

theorem foldl_addBracket_mem (ms : List String) (s : String) :
    ∀ acc : List String, s ∈ ms.foldl addBracket acc →
      s ∈ acc ∨ ∃ m ∈ ms, s = pyStrip m ∧ stripNumSuffix (pyStrip m) ≠ "" := by
  induction ms with
  | nil =>
    intro acc h
    left
    simpa using h
  | cons m ms ih =>
    intro acc h
    rw [List.foldl_cons] at h
    rcases ih _ h with hmem | ⟨m', hm', he'⟩
    · simp only [addBracket] at hmem
      split_ifs at hmem with hc
      · rcases List.mem_append.mp hmem with ha | hb
        · left
          exact ha
        · right
          refine ⟨m, List.mem_cons_self m ms, ?_, ?_⟩
          · simpa using hb
          · exact hc.1
      · left
        exact hmem
    · right
      exact ⟨m', List.mem_cons_of_mem m hm', he'⟩

/-- Claim C1, counterexample: on the text of the claim the extractor does
not return the two-element list the claim states — the vocabulary pass
additionally appends Assault, because the exact string Assault is not yet
an element and the bracket form with a count confirms it. -/
theorem C1_counterexample :
    extract_keywords ("Deals damage. [Overwhelm] [Assault 2]") ≠
      ["Overwhelm", "Assault 2"] := by
  decide

/-- Claim C1 (amended): for the input text of the claim the keyword
extractor returns exactly the three-element list Overwhelm, Assault 2,
Assault, in that order: the bracket pass contributes the first two and the
vocabulary pass appends the unsuffixed vocabulary entry Assault. -/
theorem C1_amended :
    extract_keywords ("Deals damage. [Overwhelm] [Assault 2]") =
      ["Overwhelm", "Assault 2", "Assault"] := by
  decide

/-- Claim C2, counterexample: a text with two bracketed occurrences of
Assault 2 yields a keyword list in which the exact string Assault 2
appears twice — the bracket pass deduplicates against the base name, not
the exact matched text, so the second occurrence is not suppressed. -/
theorem C2_counterexample :
    (extract_keywords ("[Assault 2] [Assault 2]")).count ("Assault 2") = 2 := by
  decide

/-- Claim C2 (amended): for every input text, any keyword string that
carries no trailing numeric suffix appears at most once in the extractor's
output; entries carrying a numeric suffix can be duplicated. -/
theorem C2_amended (text s : String) (hs : stripNumSuffix s = s) :
    (extract_keywords text).count s ≤ 1 := by
  unfold extract_keywords
  apply foldl_vocabStep_count
  exact foldl_addBracket_count (bracketMatches text) s hs [] (by simp)

/-- Claim C2 witness: a concrete instance of the amended statement. -/
theorem C2_witness :
    stripNumSuffix ("Assault") = ("Assault" : String) ∧
      (extract_keywords ("[Assault 2] [Assault 2]")).count ("Assault") ≤ 1 :=
  ⟨by decide, C2_amended ("[Assault 2] [Assault 2]") ("Assault") (by decide)⟩

/-- Claim C3, counterexample: a text containing both a bare and a suffixed
bracket form of the same base name yields only the first from the bracket
pass (and from the whole extractor), not both — the dedup check uses the
base name against existing entries, not the exact string. -/
theorem C3_counterexample :
    bracketKeywords ("[Assault] [Assault 2]") = ["Assault"] ∧
      extract_keywords ("[Assault] [Assault 2]") = ["Assault"] := by
  decide

/-- Claim C3 (amended): every entry produced by the bracket pass is a
bracketed match kept verbatim up to whitespace stripping — including any
trailing number — and its base name (the entry with a trailing numeric
suffix removed) is non-empty; but a match is appended only when its base
name is not already an exact element, so a text with both the bare and
the suffixed form yields only whichever comes first. -/
theorem C3_amended (text s : String) (h : s ∈ bracketKeywords text) :
    ∃ m ∈ bracketMatches text, s = pyStrip m ∧ stripNumSuffix (pyStrip m) ≠ "" := by
  rcases foldl_addBracket_mem (bracketMatches text) s [] h with h0 | hm
  · simp at h0
  · exact hm

/-- Claim C3 witness: a concrete instance of the amended statement. -/
theorem C3_witness :
    ("Overwhelm" : String) ∈ bracketKeywords ("[Overwhelm]") ∧
      ∃ m ∈ bracketMatches ("[Overwhelm]"),
        ("Overwhelm" : String) = pyStrip m ∧ stripNumSuffix (pyStrip m) ≠ "" :=
  ⟨by decide, C3_amended ("[Overwhelm]") ("Overwhelm") (by decide)⟩

theorem attachImage_id (images : Images) (card : Card) :
    (attachImage images card).id = card.id := by
  unfold attachImage
  cases images card.name <;> rfl

theorem attachImage_name (images : Images) (card : Card) :
    (attachImage images card).name = card.name := by
  unfold attachImage
  cases images card.name <;> rfl

theorem attachImage_image_url (images : Images) (card : Card)
    (h : card.image_url = none) :
    (attachImage images card).image_url = images (attachImage images card).name := by
  unfold attachImage
  cases hi : images card.name with
  | some url =>
    show some url = images card.name
    exact hi.symm
  | none =>
    show card.image_url = images card.name
    rw [h, hi]

theorem csvPass_foldl_forall (images : Images) (P : Card → Prop)
    (hP : ∀ row card, parse_csv_row row = some card → P (attachImage images card)) :
    ∀ (rows : List Row) (acc : List Card × List String),
      (∀ c ∈ acc.1, P c) → ∀ c ∈ (rows.foldl (csvStep images) acc).1, P c := by
  intro rows
  induction rows with
  | nil =>
    intro acc hacc
    simpa using hacc
  | cons row rows ih =>
    intro acc hacc
    rw [List.foldl_cons]
    apply ih
    unfold csvStep
    cases hp : parse_csv_row row with
    | none => exact hacc
    | some card =>
      intro c hc
      rcases List.mem_append.mp hc with h1 | h2
      · exact hacc c h1
      · have he : c = attachImage images card := by simpa using h2
        rw [he]
        exact hP row card hp

theorem csvPass_foldl_names (images : Images) :
    ∀ (rows : List Row) (acc : List Card × List String),
      acc.2 = acc.1.map (fun c => pyLower c.name) →
      (rows.foldl (csvStep images) acc).2 =
        ((rows.foldl (csvStep images) acc).1).map (fun c => pyLower c.name) := by
  intro rows
  induction rows with
  | nil =>
    intro acc h
    simpa using h
  | cons row rows ih =>
    intro acc h
    rw [List.foldl_cons]
    apply ih
    unfold csvStep
    cases hp : parse_csv_row row with
    | none => exact h
    | some card =>
      show acc.2 ++ [pyLower card.name] =
        (acc.1 ++ [attachImage images card]).map (fun c => pyLower c.name)
      rw [List.map_append, ← h]
      simp [attachImage_name]

theorem csvPass_names (rows : List Row) (images : Images) :
    (csvPass rows images).2 = ((csvPass rows images).1).map (fun c => pyLower c.name) :=
  csvPass_foldl_names images rows ([], []) (by simp)

theorem legacy_foldl_mem (names : List String) :
    ∀ (legacies : List LegacyCard) (cards : List Card) (c : Card),
      c ∈ legacies.foldl (legacyStep names) cards →
      c ∈ cards ∨ ∃ lc ∈ legacies,
        (pyLower ((lc.name).getD ("")) ≠ "" ∧ pyLower ((lc.name).getD ("")) ∉ names) ∧
          c = convert_legacy_to_expert lc := by
  intro legacies
  induction legacies with
  | nil =>
    intro cards c h
    left
    simpa using h
  | cons lc ls ih =>
    intro cards c h
    rw [List.foldl_cons] at h
    rcases ih _ _ h with hmem | ⟨lc', hl', hc'⟩
    · simp only [legacyStep] at hmem
      split_ifs at hmem with hcnd
      · rcases List.mem_append.mp hmem with h1 | h2
        · left
          exact h1
        · right
          exact ⟨lc, List.mem_cons_self lc ls, hcnd, by simpa using h2⟩
      · left
        exact hmem
    · right
      exact ⟨lc', List.mem_cons_of_mem lc hl', hc'⟩

theorem legacy_foldl_length (names : List String) :
    ∀ (legacies : List LegacyCard) (cards : List Card),
      (legacies.foldl (legacyStep names) cards).length =
        cards.length + legacies.countP (fun lc =>
          decide (pyLower ((lc.name).getD ("")) ≠ "" ∧
            pyLower ((lc.name).getD ("")) ∉ names)) := by
  intro legacies
  induction legacies with
  | nil =>
    intro cards
    simp
  | cons lc ls ih =>
    intro cards
    rw [List.foldl_cons, ih, List.countP_cons]
    simp only [legacyStep]
    by_cases hcnd : pyLower ((lc.name).getD ("")) ≠ "" ∧ pyLower ((lc.name).getD ("")) ∉ names
    · rw [if_pos hcnd, if_pos (decide_eq_true hcnd)]
      simp only [List.length_append, List.length_singleton]
      omega
    · rw [if_neg hcnd, if_neg (by simpa using hcnd)]
      omega

/-- Claim C4, counterexample: a legacy record with a name but no id is
converted and appended, and the resulting record in the final output has
an empty id string. -/
theorem C4_counterexample :
    buildCards [] noImages [lcGhost] = [convert_legacy_to_expert lcGhost] ∧
      (convert_legacy_to_expert lcGhost).id = "" ∧
      (convert_legacy_to_expert lcGhost).name = ("Ghost" : String) := by
  decide

/-- Claim C4 (amended): every record in the final output has a non-empty
name, and every CSV-derived record additionally has a non-empty id; a
legacy-converted record's id is the legacy id copied verbatim and may be
empty. -/
theorem C4_amended (rows : List Row) (images : Images) (legacies : List LegacyCard) :
    (∀ c ∈ (csvPass rows images).1, c.id ≠ "" ∧ c.name ≠ "") ∧
      (∀ c ∈ buildCards rows images legacies, c.name ≠ "") := by
  have hcsv : ∀ c ∈ (csvPass rows images).1, c.id ≠ "" ∧ c.name ≠ "" := by
    refine csvPass_foldl_forall images (fun c => c.id ≠ "" ∧ c.name ≠ "") ?_ rows
      ([], []) (by simp)
    intro row card hp
    rcases parse_csv_row_eq_some_iff.mp hp with ⟨hn, hi, hc⟩
    subst hc
    constructor
    · rw [attachImage_id]
      exact hi
    · rw [attachImage_name]
      exact hn
  refine ⟨hcsv, ?_⟩
  intro c hc
  have hb : c ∈ legacies.foldl (legacyStep (csvPass rows images).2)
      (csvPass rows images).1 := hc
  rcases legacy_foldl_mem (csvPass rows images).2 legacies (csvPass rows images).1 c hb
    with h1 | ⟨lc, _, ⟨hn, _⟩, he⟩
  · exact (hcsv c h1).2
  · subst he
    intro h0
    apply hn
    show pyLower ((lc.name).getD ("")) = ""
    rw [show ((lc.name).getD ("")) = "" from h0]
    rfl

/-- Claim C4 witness: a concrete instance of the amended statement. -/
theorem C4_witness : (convert_legacy_to_expert lcGhost).name ≠ "" :=
  (C4_amended [] noImages [lcGhost]).2 (convert_legacy_to_expert lcGhost) (by decide)

/-- Claim C5, counterexample: a legacy record with no name has an empty
lower-cased name, which does not appear among the CSV names, so the claim
counts it; the script skips it, and the final count differs from the
claim's formula. -/
theorem C5_counterexample :
    (buildCards [] noImages [emptyLegacy]).length ≠
      claimCountC5 [] noImages [emptyLegacy] := by
  decide

/-- Claim C5 (amended): the final record count equals the number of
CSV-derived records plus the number of legacy records whose lower-cased
name is non-empty and did not appear among the lower-cased names of the
CSV-derived records. -/
theorem C5_amended (rows : List Row) (images : Images) (legacies : List LegacyCard) :
    (buildCards rows images legacies).length =
      ((csvPass rows images).1).length + legacyAddCount rows images legacies := by
  unfold legacyAddCount
  show (legacies.foldl (legacyStep (csvPass rows images).2)
      (csvPass rows images).1).length = _
  rw [legacy_foldl_length, csvPass_names rows images]

/-- Claim C6, counterexample: a legacy record carrying no image_url is
converted to a record whose image_url field is present (with the empty
string as its value), so the field is not present only when carried over. -/
theorem C6_counterexample :
    buildCards [] noImages [lcG2] = [convert_legacy_to_expert lcG2] ∧
      lcG2.image_url = none ∧
      (convert_legacy_to_expert lcG2).image_url = some ("") := by
  decide

/-- Claim C6 (amended): a CSV-derived record's image_url is exactly the
image map's entry for its name (absent when the name has no entry); a
legacy-converted record always carries an image_url field, equal to the
legacy record's value verbatim when present and the empty string when
absent; and every final record is CSV-derived or the conversion of one of
the legacy records. -/
theorem C6_amended (rows : List Row) (images : Images) (legacies : List LegacyCard) :
    (∀ c ∈ (csvPass rows images).1, c.image_url = images c.name) ∧
      (∀ lc : LegacyCard,
        (convert_legacy_to_expert lc).image_url = some ((lc.image_url).getD (""))) ∧
      (∀ c ∈ buildCards rows images legacies,
        c ∈ (csvPass rows images).1 ∨ ∃ lc ∈ legacies, c = convert_legacy_to_expert lc) := by
  refine ⟨?_, fun lc => rfl, ?_⟩
  · refine csvPass_foldl_forall images (fun c => c.image_url = images c.name) ?_ rows
      ([], []) (by simp)
    intro row card hp
    rcases parse_csv_row_eq_some_iff.mp hp with ⟨_, _, hc⟩
    subst hc
    exact attachImage_image_url images (parsedCard row) rfl
  · intro c hc
    have hb : c ∈ legacies.foldl (legacyStep (csvPass rows images).2)
        (csvPass rows images).1 := hc
    rcases legacy_foldl_mem (csvPass rows images).2 legacies (csvPass rows images).1 c hb
      with h1 | ⟨lc, hl, _, he⟩
    · left
      exact h1
    · right
      exact ⟨lc, hl, he⟩

/-- Claim C6 witness: a concrete instance of the amended statement. -/
theorem C6_witness :
    (attachImage noImages (parsedCard rowCC)).image_url =
      noImages ((attachImage noImages (parsedCard rowCC)).name) :=
  (C6_amended [rowCC] noImages []).1 (attachImage noImages (parsedCard rowCC)) (by decide)

theorem domainPiece_eq (row : Row) (k : String) :
    (if rawDomainField row k ≠ "" ∧
        pyLower (rawDomainField row k) ∉ [("" : String), ("nan")] then
      [rawDomainField row k] else []) = (specDomainField (row k)).toList := by
  simp only [rawDomainField, specDomainField]
  cases hv : row k with
  | none => decide
  | some s =>
    show (if (if s = "" then "" else pyCapitalize (pyStrip s)) ≠ "" ∧
        pyLower (if s = "" then "" else pyCapitalize (pyStrip s)) ∉ [("" : String), ("nan")] then
      [if s = "" then "" else pyCapitalize (pyStrip s)] else [])
      = (if pyCapitalize (pyStrip s) = "" ∨ pyLower (pyCapitalize (pyStrip s)) = "nan" then
          (none : Option String) else some (pyCapitalize (pyStrip s))).toList
    by_cases hs : s = ""
    · subst hs
      decide
    · rw [if_neg hs]
      by_cases ht : pyCapitalize (pyStrip s) = ""
      · simp [ht]
      · by_cases hn : pyLower (pyCapitalize (pyStrip s)) = "nan"
        · simp [ht, hn]
        · have hl : pyLower (pyCapitalize (pyStrip s)) ≠ "" := by
            intro hh
            exact ht ((pyLower_eq_empty_iff (pyCapitalize (pyStrip s))).mp hh)
          simp [ht, hn, hl]

theorem domainStr_eq_spec (row : Row) : domainStr row = spec_domain row := by
  unfold domainStr spec_domain domainList
  rw [domainPiece_eq row ("Domain 1"), domainPiece_eq row ("Domain 2")]

theorem specDomainField_some_ne_empty (v : Option String) (t : String)
    (h : specDomainField v = some t) : t ≠ "" := by
  simp only [specDomainField] at h
  split_ifs at h with hc
  push_neg at hc
  have ht : pyCapitalize (pyStrip (v.getD (""))) = t := by simpa using h
  rw [← ht]
  exact hc.1

theorem option_toList_eq_nil (o : Option String) : o.toList = [] ↔ o = none := by
  cases o <;> simp

theorem option_mem_toList (o : Option String) (x : String) (h : x ∈ o.toList) :
    o = some x := by
  cases o with
  | none => simp at h
  | some y =>
    simp at h
    rw [h]

/-- Claim C7, counterexample: an all-caps domain field FURY produces the
domain string Fury — Python capitalize lower-cases the remaining
characters, it does not leave them unchanged. -/
theorem C7_counterexample :
    parse_csv_row rowFURY = some (parsedCard rowFURY) ∧
      (parsedCard rowFURY).domain = "Fury" ∧ (parsedCard rowFURY).domain ≠ "FURY" := by
  decide

/-- Claim C7 (amended): for every CSV row that produces a record, the
record's domain is obtained from the domain fields by trimming and
capitalizing with first letter upper-cased and every remaining character
lower-cased (the standard capitalize transform), dropping empty or
case-insensitively nan values, joining with a comma and a space, and
defaulting to Colorless. -/
theorem C7_amended (row : Row) (c : Card) (h : parse_csv_row row = some c) :
    c.domain = spec_domain row := by
  rcases parse_csv_row_eq_some_iff.mp h with ⟨_, _, hc⟩
  subst hc
  exact domainStr_eq_spec row

/-- Claim C7 witness: a concrete instance of the amended statement. -/
theorem C7_witness :
    parse_csv_row rowFURY = some (parsedCard rowFURY) ∧
      (parsedCard rowFURY).domain = spec_domain rowFURY :=
  ⟨by decide, C7_amended rowFURY (parsedCard rowFURY) (by decide)⟩

/-- Claim C8, counterexample: a row whose first domain field is the word
colorless (trimmed non-empty and not nan) still produces the domain string
Colorless, so domain being Colorless does not imply that both domain
fields were absent. -/
theorem C8_counterexample :
    parse_csv_row rowColorless = some (parsedCard rowColorless) ∧
      (parsedCard rowColorless).domain = "Colorless" ∧
      pyStrip (rget rowColorless ("Domain 1")) ≠ "" ∧
      pyLower (pyStrip (rget rowColorless ("Domain 1"))) ≠ ("nan" : String) := by
  decide

/-- Claim C8 (amended): if both domain fields are absent (empty or
case-insensitively nan after trimming and capitalizing) the domain is
Colorless; if at least one is present the domain is the comma-join of the
present transformed values and is never the empty string — though it may
coincidentally equal the literal Colorless when a field itself reads
colorless. -/
theorem C8_amended (row : Row) (c : Card) (h : parse_csv_row row = some c) :
    ((specDomainField (row ("Domain 1")) = none ∧
        specDomainField (row ("Domain 2")) = none) → c.domain = "Colorless") ∧
      (¬(specDomainField (row ("Domain 1")) = none ∧
          specDomainField (row ("Domain 2")) = none) →
        c.domain = pyJoin (", ") ((specDomainField (row ("Domain 1"))).toList ++
          (specDomainField (row ("Domain 2"))).toList) ∧ c.domain ≠ "") := by
  rcases parse_csv_row_eq_some_iff.mp h with ⟨_, _, hc⟩
  subst hc
  rw [show (parsedCard row).domain = spec_domain row from domainStr_eq_spec row]
  unfold spec_domain
  constructor
  · rintro ⟨ha, hb⟩
    rw [ha, hb]
    simp
  · intro hne
    have hds : (specDomainField (row ("Domain 1"))).toList ++
        (specDomainField (row ("Domain 2"))).toList ≠ [] := by
      intro h0
      apply hne
      rcases List.append_eq_nil.mp h0 with ⟨ha, hb⟩
      exact ⟨(option_toList_eq_nil _).mp ha, (option_toList_eq_nil _).mp hb⟩
    constructor
    · rw [if_neg hds]
    · rw [if_neg hds]
      rcases hx : (specDomainField (row ("Domain 1"))).toList ++
          (specDomainField (row ("Domain 2"))).toList with _ | ⟨x, xs⟩
      · exact absurd hx hds
      · apply pyJoin_cons_ne_empty
        have hmx : x ∈ (specDomainField (row ("Domain 1"))).toList ++
            (specDomainField (row ("Domain 2"))).toList := by
          rw [hx]
          exact List.mem_cons_self x xs
        rcases List.mem_append.mp hmx with h1 | h2
        · exact specDomainField_some_ne_empty _ x (option_mem_toList _ x h1)
        · exact specDomainField_some_ne_empty _ x (option_mem_toList _ x h2)

/-- Claim C8 witness: a concrete instance of the amended statement. -/
theorem C8_witness :
    parse_csv_row rowColorless = some (parsedCard rowColorless) ∧
      ¬(specDomainField (rowColorless ("Domain 1")) = none ∧
        specDomainField (rowColorless ("Domain 2")) = none) ∧
      ((parsedCard rowColorless).domain =
          pyJoin (", ") ((specDomainField (rowColorless ("Domain 1"))).toList ++
            (specDomainField (rowColorless ("Domain 2"))).toList) ∧
        (parsedCard rowColorless).domain ≠ "") :=
  ⟨by decide, by decide,
    (C8_amended rowColorless (parsedCard rowColorless) (by decide)).2 (by decide)⟩

/-- Claim C9 (confirmed): the Power field contract — absent on empty or a
dash; the upper-cased literal string when the field is all C
case-insensitively; the parsed float value when it parses; the raw string
unchanged on parse failure (never absent, unlike Energy and Might);
and concretely CC stays the string CC while 3 becomes the number 3. -/
theorem C9_power_parsing :
    (∀ (row : Row) (c : Card), parse_csv_row row = some c →
        powerSpec (pyStrip (rget row ("Power"))) c.stats.power) ∧
      (parse_csv_row rowCC).map (fun c => c.stats.power) =
        some (some (PowerVal.str ("CC"))) ∧
      (parse_csv_row rowP3).map (fun c => c.stats.power) =
        some (some (PowerVal.num (PyFloat.fin 3))) := by
  refine ⟨?_, by decide, by decide⟩
  intro row c h
  rcases parse_csv_row_eq_some_iff.mp h with ⟨_, _, hc⟩
  subst hc
  show powerSpec (pyStrip (rget row ("Power"))) (powerValOf row)
  simp only [powerValOf]
  generalize pyStrip (rget row ("Power")) = p
  unfold powerSpec
  constructor
  · intro hcase
    have hnc : ¬(p ≠ "" ∧ p ∉ [("" : String), ("-")]) := by
      rcases hcase with h1 | h1 <;> simp [h1]
    rw [if_neg hnc]
  · intro hcase
    have hcnd : p ≠ "" ∧ p ∉ [("" : String), ("-")] := by
      push_neg at hcase
      refine ⟨hcase.1, ?_⟩
      simp [hcase.1, hcase.2]
    rw [if_pos hcnd]
    constructor
    · intro hall
      have hf : (pyUpper p).data.filter (fun c => c ≠ 'C') = [] := by
        rw [List.filter_eq_nil_iff]
        intro a ha
        simp only [pyUpper] at ha
        rcases List.mem_map.mp ha with ⟨ch, hch, he⟩
        subst he
        simp [hall.2 ch hch]
      rw [if_pos hf]
    · intro hnall
      have hf : ¬((pyUpper p).data.filter (fun c => c ≠ 'C') = []) := by
        intro h0
        apply hnall
        refine ⟨hcnd.1, ?_⟩
        intro ch hch
        have hm : Char.toUpper ch ∈ (pyUpper p).data := by
          simp only [pyUpper]
          exact List.mem_map.mpr ⟨ch, hch, rfl⟩
        have := List.filter_eq_nil_iff.mp h0 (Char.toUpper ch) hm
        simpa using this
      rw [if_neg hf]
      constructor
      · intro f hfe
        rw [hfe]
      · intro hfe
        rw [hfe]

/-- Claim C9 witness: a concrete instance of the universal part. -/
theorem C9_witness :
    parse_csv_row rowCC = some (parsedCard rowCC) ∧
      powerSpec (pyStrip (rget rowCC ("Power"))) ((parsedCard rowCC).stats.power) :=
  ⟨by decide, C9_power_parsing.1 rowCC (parsedCard rowCC) (by decide)⟩

theorem rawDomainField_totalize (row : Row) (k : String) :
    rawDomainField (totalizeRow row) k = rawDomainField row k := by
  unfold rawDomainField totalizeRow
  cases row k <;> rfl

/-- Claim C10 (confirmed): the row parser is total — in this embedding it
is a function into Option Card, a row with missing columns parses exactly
as the row with those columns set to the empty string, and a failed
numeric parse of Energy or Might yields an absent stat value rather than
an error. -/
theorem C10_row_parser_total :
    (∀ row : Row, parse_csv_row row = parse_csv_row (totalizeRow row)) ∧
      (∀ (row : Row) (c : Card), parse_csv_row row = some c →
        (pyFloat (pyStrip (rget row ("Energy"))) = none → c.stats.energy = none) ∧
        (pyFloat (pyStrip (rget row ("Might"))) = none → c.stats.might = none)) := by
  constructor
  · intro row
    have hd : domainStr (totalizeRow row) = domainStr row := by
      unfold domainStr domainList
      rw [rawDomainField_totalize row ("Domain 1"), rawDomainField_totalize row ("Domain 2")]
    unfold parse_csv_row parsedCard
    rw [hd]
    rfl
  · intro row c h
    rcases parse_csv_row_eq_some_iff.mp h with ⟨_, _, hc⟩
    subst hc
    constructor
    · intro hf
      show energyVal row = none
      simp only [energyVal]
      split_ifs with hcnd
      · exact hf
      · rfl
    · intro hf
      show mightVal row = none
      simp only [mightVal]
      split_ifs with hcnd
      · exact hf
      · rfl

/-- Claim C10 witness: a concrete instance of the parse-failure part. -/
theorem C10_witness :
    parse_csv_row rowEnergyBad = some (parsedCard rowEnergyBad) ∧
      pyFloat (pyStrip (rget rowEnergyBad ("Energy"))) = none ∧
      (parsedCard rowEnergyBad).stats.energy = none :=
  ⟨by decide, by decide,
    (C10_row_parser_total.2 rowEnergyBad (parsedCard rowEnergyBad) (by decide)).1 (by decide)⟩

end RBRefresh
